import Mathlib

/-!
# Secure storage flash layer (`secure_fw/services/secure_storage/flash/sst_flash.c`)

A shallow embedding of the block-addressed flash access layer of the secure
storage service, and theorems about it.

* `uint32_t` values are natural numbers, reduced with `u32` after every
  arithmetic step the C code performs in `uint32_t`.  Arguments range over all
  natural numbers, the 32-bit values among them; concrete examples only use
  values below 2^32.
* `uint8_t` values are `Fin 256`; a C buffer is the list of its bytes.
* The CMSIS flash driver `FLASH_DEV_NAME` is external to the file.  It is a
  parameter of every operation: a record of three functions acting on an
  explicit device state.  A function that receives a pointer to a buffer takes
  the contents of the buffer and, when it may write to it, returns the new
  contents.
* `static uint8_t dst_block_data_copy[SST_BLOCK_SIZE]` is persistent state of
  `sst_flash_block_to_block_move`; it is passed in and returned.
-/

namespace SstFlash

/-! ## Machine integers -/

/-- Contents of one `uint8_t`. -/
abbrev Byte := Fin 256

/-- Truncation of an integer result to `uint32_t`. -/
def u32 (n : Nat) : Nat := n % 2 ^ 32

/-! ## Configuration and external declarations -/

/-- Configuration macros used by sst_flash.c.  `SST_FLASH_AREA_ADDR` comes from
flash_layout.h and `SST_BLOCK_SIZE` from the storage headers; neither header is
part of the sources, so both values are parameters of the development. -/
structure FlashLayout where
  SST_FLASH_AREA_ADDR : Nat
  SST_BLOCK_SIZE : Nat
  deriving DecidableEq

/-- Modelled from the spec: the result enumeration `enum psa_sst_err_t` is
declared in tfm_sst_defs.h, which is not part of the sources.  The two
enumerators sst_flash.c returns are kept by name; `other` stands for every
further enumerator of the type. -/
inductive psa_sst_err_t where
  | PSA_SST_ERR_SUCCESS
  | PSA_SST_ERR_SYSTEM_ERROR
  | other (code : Nat)
  deriving DecidableEq

open psa_sst_err_t

/-- Modelled from the spec: the driver status `ARM_DRIVER_OK` of the CMSIS
header Driver_Common.h (not part of the sources), the one "ok" outcome of a
device operation; CMSIS defines it as 0. -/
def ARM_DRIVER_OK : Int := 0

/-- Outcome of a driver call that fills a buffer: the `int32_t` status, the
contents of the buffer after the call and the device state after the call. -/
structure DevRead (σ : Type) where
  status : Int
  data : List Byte
  dev : σ

/-- Outcome of a driver call that only acts on the device. -/
structure DevOut (σ : Type) where
  status : Int
  dev : σ

/-- Modelled from the spec: the access structure `ARM_DRIVER_FLASH` of the CMSIS
header Driver_Flash.h (not part of the sources), restricted to the three entry
points sst_flash.c calls: `ReadData(addr, data, cnt)`,
`ProgramData(addr, data, cnt)` and `EraseSector(addr)`.  `σ` is the state of the
device; nothing is assumed about what an entry point does. -/
structure ARM_DRIVER_FLASH (σ : Type) where
  ReadData : σ → Nat → List Byte → Nat → DevRead σ
  ProgramData : σ → Nat → List Byte → Nat → DevOut σ
  EraseSector : σ → Nat → DevOut σ

/-! ## The code of sst_flash.c -/

/-- Macro `BLOCK_START_OFFSET`, defined as 0 in sst_flash.c. -/
def BLOCK_START_OFFSET : Nat := 0

/-- Physical address of `offset` within block `block_id`:
`SST_FLASH_AREA_ADDR + (block_id * SST_BLOCK_SIZE) + offset`, every step in
`uint32_t`. -/
def get_phys_address (L : FlashLayout) (block_id offset : Nat) : Nat :=
  u32 (u32 (L.SST_FLASH_AREA_ADDR + u32 (block_id * L.SST_BLOCK_SIZE)) + offset)

/-- Result of an operation that fills the caller's buffer. -/
structure SstRead (σ : Type) where
  err : psa_sst_err_t
  buff : List Byte
  dev : σ

/-- Result of an operation that only acts on the device. -/
structure SstOut (σ : Type) where
  err : psa_sst_err_t
  dev : σ

/-- Result of a block-to-block move: the error code, the contents the static
scratch buffer is left with, and the device state. -/
structure SstMove (σ : Type) where
  err : psa_sst_err_t
  dst_block_data_copy : List Byte
  dev : σ

/-- Static `flash_read`: one `ReadData` call, its status collapsed to two values. -/
def flash_read {σ : Type} (FLASH_DEV_NAME : ARM_DRIVER_FLASH σ) (dev : σ)
    (flash_addr : Nat) (buff : List Byte) (size : Nat) : SstRead σ :=
  let r := FLASH_DEV_NAME.ReadData dev flash_addr buff size
  let err := r.status
  if err ≠ ARM_DRIVER_OK then
    ⟨PSA_SST_ERR_SYSTEM_ERROR, r.data, r.dev⟩
  else
    ⟨PSA_SST_ERR_SUCCESS, r.data, r.dev⟩

/-- Static `flash_write`: one `ProgramData` call, its status collapsed to two values. -/
def flash_write {σ : Type} (FLASH_DEV_NAME : ARM_DRIVER_FLASH σ) (dev : σ)
    (flash_addr : Nat) (buff : List Byte) (size : Nat) : SstOut σ :=
  let r := FLASH_DEV_NAME.ProgramData dev flash_addr buff size
  let err := r.status
  if err ≠ ARM_DRIVER_OK then
    ⟨PSA_SST_ERR_SYSTEM_ERROR, r.dev⟩
  else
    ⟨PSA_SST_ERR_SUCCESS, r.dev⟩

/-- Static `flash_erase`: one `EraseSector` call, its status collapsed to two values. -/
def flash_erase {σ : Type} (FLASH_DEV_NAME : ARM_DRIVER_FLASH σ) (dev : σ)
    (flash_addr : Nat) : SstOut σ :=
  let r := FLASH_DEV_NAME.EraseSector dev flash_addr
  let err := r.status
  if err ≠ ARM_DRIVER_OK then
    ⟨PSA_SST_ERR_SYSTEM_ERROR, r.dev⟩
  else
    ⟨PSA_SST_ERR_SUCCESS, r.dev⟩

/-- Reads `size` bytes at `offset` of block `block_id` into `buff`. -/
def sst_flash_read {σ : Type} (L : FlashLayout) (FLASH_DEV_NAME : ARM_DRIVER_FLASH σ)
    (dev : σ) (block_id : Nat) (buff : List Byte) (offset size : Nat) : SstRead σ :=
  let flash_addr := get_phys_address L block_id offset
  flash_read FLASH_DEV_NAME dev flash_addr buff size

/-- Programs `size` bytes of `buff` at `offset` of block `block_id`. -/
def sst_flash_write {σ : Type} (L : FlashLayout) (FLASH_DEV_NAME : ARM_DRIVER_FLASH σ)
    (dev : σ) (block_id : Nat) (buff : List Byte) (offset size : Nat) : SstOut σ :=
  let flash_addr := get_phys_address L block_id offset
  flash_write FLASH_DEV_NAME dev flash_addr buff size

/-- Moves `size` bytes from `(src_block, src_offset)` to `(dst_block, dst_offset)`
through the static buffer `dst_block_data_copy`. -/
def sst_flash_block_to_block_move {σ : Type} (L : FlashLayout)
    (FLASH_DEV_NAME : ARM_DRIVER_FLASH σ) (dev : σ) (dst_block_data_copy : List Byte)
    (dst_block dst_offset src_block src_offset size : Nat) : SstMove σ :=
  let src_flash_addr := get_phys_address L src_block src_offset
  let rd := flash_read FLASH_DEV_NAME dev src_flash_addr dst_block_data_copy size
  if rd.err ≠ PSA_SST_ERR_SUCCESS then
    ⟨rd.err, rd.buff, rd.dev⟩
  else
    let dst_flash_addr := get_phys_address L dst_block dst_offset
    let wr := flash_write FLASH_DEV_NAME rd.dev dst_flash_addr rd.buff size
    ⟨wr.err, rd.buff, wr.dev⟩

/-- Erases the block `block_id`. -/
def sst_flash_erase_block {σ : Type} (L : FlashLayout) (FLASH_DEV_NAME : ARM_DRIVER_FLASH σ)
    (dev : σ) (block_id : Nat) : SstOut σ :=
  let flash_addr := get_phys_address L block_id BLOCK_START_OFFSET
  flash_erase FLASH_DEV_NAME dev flash_addr

/-! ## Device stubs -/

/-- Contents of the flash device, one byte per address.  Addresses are natural
numbers: a transfer of `cnt` bytes at `addr` touches `addr`, ..., `addr + cnt - 1`
without wrapping. -/
abbrev FlashMem := Nat → Byte

/-- The `cnt` bytes stored at `addr`, `addr + 1`, ..., `addr + cnt - 1`. -/
def readBytes (mem : FlashMem) (addr cnt : Nat) : List Byte :=
  (List.range cnt).map (fun i => mem (addr + i))

/-- The memory after the first `cnt` bytes of `data` are stored at `addr`,
..., `addr + cnt - 1`. -/
def storeBytes (mem : FlashMem) (addr : Nat) (data : List Byte) (cnt : Nat) : FlashMem :=
  fun a => if addr ≤ a ∧ a < addr + cnt then data.getD (a - addr) 0 else mem a

/-- The memory after the sector of size `sector_size` that contains `addr` is
set to the erased value 0xFF; sectors start at the multiples of `sector_size`. -/
def eraseBytes (sector_size : Nat) (mem : FlashMem) (addr : Nat) : FlashMem :=
  fun a => if a / sector_size = addr / sector_size then 0xFF else mem a

/-- Modelled from the spec: a device stub that faithfully stores what it is
given and models erase semantics.  `ProgramData(addr, data, cnt)` stores the
`cnt` bytes at `addr .. addr + cnt - 1`, `ReadData(addr, data, cnt)` delivers
the stored bytes into the first `cnt` positions of the buffer, and
`EraseSector(addr)` sets the sector containing `addr` to 0xFF.  Every call
reports `ARM_DRIVER_OK`. -/
def simFlash (sector_size : Nat) : ARM_DRIVER_FLASH FlashMem where
  ReadData mem addr data cnt := ⟨ARM_DRIVER_OK, readBytes mem addr cnt ++ data.drop cnt, mem⟩
  ProgramData mem addr data cnt := ⟨ARM_DRIVER_OK, storeBytes mem addr data cnt⟩
  EraseSector mem addr := ⟨ARM_DRIVER_OK, eraseBytes sector_size mem addr⟩

/-- Modelled from the spec: a device stub configured to fail.  An operation at
address `addr` reports the status the configuration gives for it; it acts as
`simFlash` when that status is `ARM_DRIVER_OK` and leaves buffer and storage
alone otherwise. -/
def stubFlash (sector_size : Nat) (readStatus programStatus eraseStatus : Nat → Int) :
    ARM_DRIVER_FLASH FlashMem where
  ReadData mem addr data cnt :=
    if readStatus addr = ARM_DRIVER_OK then (simFlash sector_size).ReadData mem addr data cnt
    else ⟨readStatus addr, data, mem⟩
  ProgramData mem addr data cnt :=
    if programStatus addr = ARM_DRIVER_OK then (simFlash sector_size).ProgramData mem addr data cnt
    else ⟨programStatus addr, mem⟩
  EraseSector mem addr :=
    if eraseStatus addr = ARM_DRIVER_OK then (simFlash sector_size).EraseSector mem addr
    else ⟨eraseStatus addr, mem⟩

/-- One call observed at the driver interface, with the arguments it was given. -/
inductive FlashCall where
  | ReadData (addr : Nat) (data : List Byte) (cnt : Nat)
  | ProgramData (addr : Nat) (data : List Byte) (cnt : Nat)
  | EraseSector (addr : Nat)
  deriving DecidableEq

/-- Whether an observed call is a `ProgramData` call. -/
def FlashCall.isProgramData : FlashCall → Bool
  | .ProgramData _ _ _ => true
  | _ => false

/-- A driver that behaves as `D` and appends every call it receives to a log
kept next to the device state. -/
def recording {σ : Type} (D : ARM_DRIVER_FLASH σ) : ARM_DRIVER_FLASH (σ × List FlashCall) where
  ReadData s addr data cnt :=
    let r := D.ReadData s.1 addr data cnt
    ⟨r.status, r.data, (r.dev, s.2 ++ [FlashCall.ReadData addr data cnt])⟩
  ProgramData s addr data cnt :=
    let r := D.ProgramData s.1 addr data cnt
    ⟨r.status, (r.dev, s.2 ++ [FlashCall.ProgramData addr data cnt])⟩
  EraseSector s addr :=
    let r := D.EraseSector s.1 addr
    ⟨r.status, (r.dev, s.2 ++ [FlashCall.EraseSector addr])⟩

/-- Number of `ProgramData` calls in a log. -/
def programCalls (log : List FlashCall) : Nat := log.countP FlashCall.isProgramData

/-! ## Concrete configurations used in examples -/

/-- A layout with 4 KiB blocks: region base 0x200000, block size 0x1000. -/
def pow2Layout : FlashLayout := ⟨0x200000, 0x1000⟩

/-- A layout with blocks of three 4 KiB sectors: region base 0x300000 (a
multiple of the block size), block size 0x3000. -/
def tripleLayout : FlashLayout := ⟨0x300000, 0x3000⟩

/-- A memory holding `v` at `addr` and 0 everywhere else. -/
def oneByteMem (addr : Nat) (v : Byte) : FlashMem := fun a => if a = addr then v else 0

/-- A memory holding 0 everywhere. -/
def zeroMem : FlashMem := fun _ => 0

/-- The generic CMSIS error status `ARM_DRIVER_ERROR` (-1), used as the non-OK
status in examples. -/
def ARM_DRIVER_ERROR : Int := -1

/-- A stub whose `ReadData` always fails with `ARM_DRIVER_ERROR`. -/
def readFailingFlash : ARM_DRIVER_FLASH FlashMem :=
  stubFlash 0x1000 (fun _ => ARM_DRIVER_ERROR) (fun _ => ARM_DRIVER_OK) (fun _ => ARM_DRIVER_OK)

/-- A stub whose `ProgramData` always fails with `ARM_DRIVER_ERROR`. -/
def programFailingFlash : ARM_DRIVER_FLASH FlashMem :=
  stubFlash 0x1000 (fun _ => ARM_DRIVER_OK) (fun _ => ARM_DRIVER_ERROR) (fun _ => ARM_DRIVER_OK)

/-! ## Address translation -/

theorem u32_lt (n : Nat) : u32 n < 2 ^ 32 := Nat.mod_lt _ (by norm_num)

theorem u32_of_lt {n : Nat} (h : n < 2 ^ 32) : u32 n = n := Nat.mod_eq_of_lt h

/-- The stepwise `uint32_t` computation is the exact sum reduced modulo 2^32. -/
theorem get_phys_address_eq_mod (L : FlashLayout) (block_id offset : Nat) :
    get_phys_address L block_id offset
      = (L.SST_FLASH_AREA_ADDR + block_id * L.SST_BLOCK_SIZE + offset) % 2 ^ 32 := by
  unfold get_phys_address u32
  simp [Nat.add_mod, Nat.mod_mod]

theorem get_phys_address_lt (L : FlashLayout) (block_id offset : Nat) :
    get_phys_address L block_id offset < 2 ^ 32 := by
  unfold get_phys_address; exact u32_lt _

/-! ## The faithful device stub -/

theorem readBytes_length (mem : FlashMem) (addr cnt : Nat) :
    (readBytes mem addr cnt).length = cnt := by
  simp [readBytes]

theorem readBytes_getElem (mem : FlashMem) (addr cnt i : Nat)
    (h : i < (readBytes mem addr cnt).length) :
    (readBytes mem addr cnt)[i] = mem (addr + i) := by
  simp [readBytes]

/-- Reading depends only on the bytes in the range read. -/
theorem readBytes_congr (m1 m2 : FlashMem) (addr cnt : Nat)
    (h : ∀ i, i < cnt → m1 (addr + i) = m2 (addr + i)) :
    readBytes m1 addr cnt = readBytes m2 addr cnt := by
  unfold readBytes
  apply List.map_congr_left
  intro i hi
  exact h i (List.mem_range.mp hi)

/-- What was programmed is what is read back. -/
theorem readBytes_storeBytes (mem : FlashMem) (addr : Nat) (data : List Byte) (cnt : Nat)
    (h : cnt ≤ data.length) :
    readBytes (storeBytes mem addr data cnt) addr cnt = data.take cnt := by
  apply List.ext_getElem
  · simp [readBytes_length, h]
  · intro i h1 h2
    have hi : i < cnt := by simpa [readBytes_length] using h1
    rw [readBytes_getElem]
    have hd : i < data.length := lt_of_lt_of_le hi h
    simp [storeBytes, hi, List.getElem?_eq_getElem hd]

theorem storeBytes_outside (mem : FlashMem) (addr : Nat) (data : List Byte) (cnt a : Nat)
    (h : a < addr ∨ addr + cnt ≤ a) : storeBytes mem addr data cnt a = mem a := by
  unfold storeBytes
  rw [if_neg]
  omega

/-- Programming, at `addr`, the bytes just read from `addr` changes nothing. -/
theorem storeBytes_readBytes_same (mem : FlashMem) (addr cnt : Nat) (rest : List Byte) (a : Nat) :
    storeBytes mem addr (readBytes mem addr cnt ++ rest) cnt a = mem a := by
  unfold storeBytes
  split
  · rename_i hin
    have hi : a - addr < (readBytes mem addr cnt).length := by
      rw [readBytes_length]; omega
    have hi2 : a - addr < (readBytes mem addr cnt ++ rest).length := by
      rw [List.length_append]; omega
    rw [List.getD_eq_getElem _ _ hi2, List.getElem_append_left hi, readBytes_getElem]
    congr 1; omega
  · rfl

theorem take_readBytes_append (mem : FlashMem) (addr cnt : Nat) (rest : List Byte) :
    (readBytes mem addr cnt ++ rest).take cnt = readBytes mem addr cnt := by
  have h := readBytes_length mem addr cnt
  rw [List.take_append_eq_append_take, h]
  simp [List.take_of_length_le, h]

/-! ## Block extents -/

/-- The address of `(block_id, offset)` is the base address of the block plus
`offset`, truncated to `uint32_t`. -/
theorem get_phys_address_offset (L : FlashLayout) (block_id offset : Nat) :
    get_phys_address L block_id offset = u32 (get_phys_address L block_id 0 + offset) := by
  rw [get_phys_address_eq_mod, get_phys_address_eq_mod]
  unfold u32
  simp [Nat.add_mod, Nat.mod_mod]

/-- Without wrap-around the base address of a block is the exact sum. -/
theorem block_base_exact (L : FlashLayout) (block_id : Nat)
    (h : L.SST_FLASH_AREA_ADDR + block_id * L.SST_BLOCK_SIZE < 2 ^ 32) :
    get_phys_address L block_id 0 = L.SST_FLASH_AREA_ADDR + block_id * L.SST_BLOCK_SIZE := by
  rw [get_phys_address_eq_mod]
  exact Nat.mod_eq_of_lt (by simpa using h)

/-- When the block size divides 2^32, truncation keeps the residue of the base
address modulo the block size. -/
theorem block_base_mod (L : FlashLayout) (block_id : Nat) (hB : L.SST_BLOCK_SIZE ∣ 2 ^ 32) :
    get_phys_address L block_id 0 % L.SST_BLOCK_SIZE
      = L.SST_FLASH_AREA_ADDR % L.SST_BLOCK_SIZE := by
  rw [get_phys_address_eq_mod, Nat.mod_mod_of_dvd _ hB]
  simp [Nat.add_mul_mod_self_right]

theorem apart_of_mod_eq {a b B : Nat} (h : a % B = b % B) (hlt : a < b) : a + B ≤ b := by
  have hd : B ∣ b - a := (Nat.modEq_iff_dvd' hlt.le).mp h
  have := Nat.le_of_dvd (by omega) hd
  omega

/-- A layout condition under which the extents of two blocks coincide or are
disjoint: the block size divides 2^32, or neither extent wraps around. -/
theorem block_bases_equal_or_apart (L : FlashLayout) (i j : Nat)
    (hlay : L.SST_BLOCK_SIZE ∣ 2 ^ 32 ∨
      (L.SST_FLASH_AREA_ADDR + (i + 1) * L.SST_BLOCK_SIZE ≤ 2 ^ 32 ∧
       L.SST_FLASH_AREA_ADDR + (j + 1) * L.SST_BLOCK_SIZE ≤ 2 ^ 32)) :
    get_phys_address L i 0 = get_phys_address L j 0 ∨
    get_phys_address L i 0 + L.SST_BLOCK_SIZE ≤ get_phys_address L j 0 ∨
    get_phys_address L j 0 + L.SST_BLOCK_SIZE ≤ get_phys_address L i 0 := by
  rcases hlay with hB | ⟨hi, hj⟩
  · have hmod : get_phys_address L i 0 % L.SST_BLOCK_SIZE
        = get_phys_address L j 0 % L.SST_BLOCK_SIZE := by
      rw [block_base_mod L i hB, block_base_mod L j hB]
    rcases Nat.lt_trichotomy (get_phys_address L i 0) (get_phys_address L j 0) with h | h | h
    · exact Or.inr (Or.inl (apart_of_mod_eq hmod h))
    · exact Or.inl h
    · exact Or.inr (Or.inr (apart_of_mod_eq hmod.symm h))
  · rcases Nat.eq_zero_or_pos L.SST_BLOCK_SIZE with h0 | hpos
    · left
      rw [get_phys_address_eq_mod, get_phys_address_eq_mod, h0]
      simp
    · have ei : get_phys_address L i 0 = L.SST_FLASH_AREA_ADDR + i * L.SST_BLOCK_SIZE :=
        block_base_exact L i (by nlinarith)
      have ej : get_phys_address L j 0 = L.SST_FLASH_AREA_ADDR + j * L.SST_BLOCK_SIZE :=
        block_base_exact L j (by nlinarith)
      rw [ei, ej]
      rcases Nat.lt_trichotomy i j with h | h | h
      · right; left
        have : (i + 1) * L.SST_BLOCK_SIZE ≤ j * L.SST_BLOCK_SIZE :=
          Nat.mul_le_mul_right _ h
        nlinarith
      · left; rw [h]
      · right; right
        have : (j + 1) * L.SST_BLOCK_SIZE ≤ i * L.SST_BLOCK_SIZE :=
          Nat.mul_le_mul_right _ h
        nlinarith

/-- With a sector-aligned region base, under the same layout condition, the
base address of a block is a multiple of the block size and the extent of the
block ends within the 32-bit address space. -/
theorem block_base_aligned (L : FlashLayout) (id : Nat)
    (hpos : 0 < L.SST_BLOCK_SIZE)
    (halign : L.SST_FLASH_AREA_ADDR % L.SST_BLOCK_SIZE = 0)
    (hlay : L.SST_BLOCK_SIZE ∣ 2 ^ 32 ∨
      L.SST_FLASH_AREA_ADDR + (id + 1) * L.SST_BLOCK_SIZE ≤ 2 ^ 32) :
    get_phys_address L id 0 % L.SST_BLOCK_SIZE = 0 ∧
    get_phys_address L id 0 + L.SST_BLOCK_SIZE ≤ 2 ^ 32 := by
  rcases hlay with hB | hi
  · have hmod : get_phys_address L id 0 % L.SST_BLOCK_SIZE = 0 := by
      rw [block_base_mod L id hB, halign]
    refine ⟨hmod, ?_⟩
    have h0 : (2 ^ 32) % L.SST_BLOCK_SIZE = get_phys_address L id 0 % L.SST_BLOCK_SIZE := by
      rw [hmod]; exact Nat.mod_eq_zero_of_dvd hB
    exact apart_of_mod_eq h0.symm (get_phys_address_lt L id 0)
  · have e : get_phys_address L id 0 = L.SST_FLASH_AREA_ADDR + id * L.SST_BLOCK_SIZE :=
      block_base_exact L id (by nlinarith)
    rw [e]
    constructor
    · rw [Nat.add_mul_mod_self_right, halign]
    · nlinarith

/-! ## The operations over the faithful device stub -/

theorem sst_flash_read_simFlash (L : FlashLayout) (S : Nat) (mem : FlashMem)
    (block_id : Nat) (buff : List Byte) (offset size : Nat) :
    sst_flash_read L (simFlash S) mem block_id buff offset size
      = ⟨PSA_SST_ERR_SUCCESS,
          readBytes mem (get_phys_address L block_id offset) size ++ buff.drop size, mem⟩ := by
  simp [sst_flash_read, flash_read, simFlash]

theorem sst_flash_write_simFlash (L : FlashLayout) (S : Nat) (mem : FlashMem)
    (block_id : Nat) (buff : List Byte) (offset size : Nat) :
    sst_flash_write L (simFlash S) mem block_id buff offset size
      = ⟨PSA_SST_ERR_SUCCESS,
          storeBytes mem (get_phys_address L block_id offset) buff size⟩ := by
  simp [sst_flash_write, flash_write, simFlash]

theorem sst_flash_erase_block_simFlash (L : FlashLayout) (S : Nat) (mem : FlashMem)
    (block_id : Nat) :
    sst_flash_erase_block L (simFlash S) mem block_id
      = ⟨PSA_SST_ERR_SUCCESS, eraseBytes S mem (get_phys_address L block_id 0)⟩ := by
  simp [sst_flash_erase_block, flash_erase, simFlash, BLOCK_START_OFFSET]

theorem sst_flash_block_to_block_move_simFlash (L : FlashLayout) (S : Nat) (mem : FlashMem)
    (scratch : List Byte) (dst_block dst_offset src_block src_offset size : Nat) :
    sst_flash_block_to_block_move L (simFlash S) mem scratch
        dst_block dst_offset src_block src_offset size
      = ⟨PSA_SST_ERR_SUCCESS,
          readBytes mem (get_phys_address L src_block src_offset) size ++ scratch.drop size,
          storeBytes mem (get_phys_address L dst_block dst_offset)
            (readBytes mem (get_phys_address L src_block src_offset) size ++ scratch.drop size)
            size⟩ := by
  simp [sst_flash_block_to_block_move, flash_read, flash_write, simFlash]

/-- After a move over the faithful stub the destination range holds the bytes
the source range held before the call, whatever the scratch buffer held. -/
theorem readBytes_after_move (mem : FlashMem) (scratch : List Byte) (src dst size : Nat) :
    readBytes (storeBytes mem dst (readBytes mem src size ++ scratch.drop size) size) dst size
      = readBytes mem src size := by
  rw [readBytes_storeBytes _ _ _ _ (by simp [readBytes_length]), take_readBytes_append]

/-- The memory a move leaves does not depend on the scratch buffer it started with. -/
theorem storeBytes_scratch_irrelevant (mem : FlashMem) (s1 s2 : List Byte) (src dst size : Nat) :
    storeBytes mem dst (readBytes mem src size ++ s1.drop size) size
      = storeBytes mem dst (readBytes mem src size ++ s2.drop size) size := by
  funext a
  unfold storeBytes
  split
  · rename_i hin
    have hi : a - dst < (readBytes mem src size).length := by
      rw [readBytes_length]; omega
    rw [List.getD_eq_getElem?_getD, List.getD_eq_getElem?_getD,
      List.getElem?_append_left hi, List.getElem?_append_left hi]
  · rfl

/-! ## The wrap-around is present in every layout -/

/-- Whatever the region base, as soon as the block size is positive some 32-bit
arguments make the translated address differ from the exact integer sum. -/
theorem get_phys_address_wraps_in_every_layout (L : FlashLayout)
    (hB : 0 < L.SST_BLOCK_SIZE) :
    get_phys_address L 1 (2 ^ 32 - 1)
      ≠ L.SST_FLASH_AREA_ADDR + 1 * L.SST_BLOCK_SIZE + (2 ^ 32 - 1) := by
  have h := get_phys_address_lt L 1 (2 ^ 32 - 1)
  omega

/-- Whatever the region base, as soon as the block size is at least 2 some
32-bit block id other than 0 is translated, at offset 0, to an address inside
block 0. -/
theorem blocks_overlap_in_every_layout (L : FlashLayout) (hB : 2 ≤ L.SST_BLOCK_SIZE) :
    ∃ j o, j ≠ 0 ∧ j < 2 ^ 32 ∧ o < L.SST_BLOCK_SIZE ∧
      get_phys_address L 0 o = get_phys_address L j 0 := by
  have hdm := Nat.div_add_mod (2 ^ 32 + L.SST_BLOCK_SIZE - 1) L.SST_BLOCK_SIZE
  have hr := Nat.mod_lt (2 ^ 32 + L.SST_BLOCK_SIZE - 1) (show 0 < L.SST_BLOCK_SIZE by omega)
  generalize (2 ^ 32 + L.SST_BLOCK_SIZE - 1) / L.SST_BLOCK_SIZE = j at hdm
  generalize (2 ^ 32 + L.SST_BLOCK_SIZE - 1) % L.SST_BLOCK_SIZE = r at hdm hr
  rw [Nat.mul_comm] at hdm
  have hge : 2 ^ 32 ≤ j * L.SST_BLOCK_SIZE := by omega
  have hle : j * L.SST_BLOCK_SIZE < 2 ^ 32 + L.SST_BLOCK_SIZE := by omega
  refine ⟨j, j * L.SST_BLOCK_SIZE - 2 ^ 32, ?_, ?_, by omega, ?_⟩
  · rintro rfl
    simp at hge
  · by_contra hj
    have hj2 : 2 ^ 32 ≤ j := by omega
    have : 2 ^ 32 * 2 ≤ j * L.SST_BLOCK_SIZE := Nat.mul_le_mul hj2 hB
    nlinarith
  · rw [get_phys_address_eq_mod, get_phys_address_eq_mod]
    have e : L.SST_FLASH_AREA_ADDR + j * L.SST_BLOCK_SIZE + 0
        = L.SST_FLASH_AREA_ADDR + 0 * L.SST_BLOCK_SIZE + (j * L.SST_BLOCK_SIZE - 2 ^ 32)
          + 2 ^ 32 := by omega
    rw [e, Nat.add_mod_right]

/-! ## Claims -/

/-- C1 (amended): for every block_id and offset, get_phys_address(block_id, offset)
is SST_FLASH_AREA_ADDR + block_id * SST_BLOCK_SIZE + offset reduced modulo 2^32,
and it equals the exact integer sum if and only if that sum is below 2^32. -/
theorem get_phys_address_exact_iff (L : FlashLayout) (block_id offset : Nat) :
    get_phys_address L block_id offset
        = (L.SST_FLASH_AREA_ADDR + block_id * L.SST_BLOCK_SIZE + offset) % 2 ^ 32 ∧
    (get_phys_address L block_id offset
        = L.SST_FLASH_AREA_ADDR + block_id * L.SST_BLOCK_SIZE + offset ↔
      L.SST_FLASH_AREA_ADDR + block_id * L.SST_BLOCK_SIZE + offset < 2 ^ 32) := by
  refine ⟨get_phys_address_eq_mod L block_id offset, ?_⟩
  constructor
  · intro h
    rw [← h]
    exact get_phys_address_lt L block_id offset
  · intro h
    rw [get_phys_address_eq_mod]
    exact Nat.mod_eq_of_lt h

/-- C1 as stated fails: with region base 0x200000 and block size 0x1000, the
32-bit inputs block_id = 0x100000 and offset = 0 give the address 0x200000,
not the integer sum 0x200000 + 0x100000 * 0x1000 + 0 = 0x100200000. -/
theorem get_phys_address_not_exact :
    (0x100000 : Nat) < 2 ^ 32 ∧
    get_phys_address pow2Layout 0x100000 0 = 0x200000 ∧
    get_phys_address pow2Layout 0x100000 0
      ≠ pow2Layout.SST_FLASH_AREA_ADDR + 0x100000 * pow2Layout.SST_BLOCK_SIZE + 0 := by
  decide

/-- C9 (amended): for two distinct block ids i, j and offsets o1, o2 below
SST_BLOCK_SIZE such that neither sum SST_FLASH_AREA_ADDR + id * SST_BLOCK_SIZE + o
wraps around 2^32, get_phys_address(i, o1) differs from get_phys_address(j, o2). -/
theorem blocks_disjoint_without_wrap (L : FlashLayout) (i j o1 o2 : Nat)
    (hij : i ≠ j) (h1 : o1 < L.SST_BLOCK_SIZE) (h2 : o2 < L.SST_BLOCK_SIZE)
    (hi : L.SST_FLASH_AREA_ADDR + i * L.SST_BLOCK_SIZE + o1 < 2 ^ 32)
    (hj : L.SST_FLASH_AREA_ADDR + j * L.SST_BLOCK_SIZE + o2 < 2 ^ 32) :
    get_phys_address L i o1 ≠ get_phys_address L j o2 := by
  rw [get_phys_address_eq_mod, get_phys_address_eq_mod,
    Nat.mod_eq_of_lt hi, Nat.mod_eq_of_lt hj]
  intro heq
  rcases Nat.lt_or_gt_of_ne hij with h | h
  · have : (i + 1) * L.SST_BLOCK_SIZE ≤ j * L.SST_BLOCK_SIZE := Nat.mul_le_mul_right _ h
    nlinarith
  · have : (j + 1) * L.SST_BLOCK_SIZE ≤ i * L.SST_BLOCK_SIZE := Nat.mul_le_mul_right _ h
    nlinarith

/-- Witness for C9 (amended): blocks 0 and 1 of the 4 KiB layout. -/
theorem blocks_disjoint_without_wrap_witness :
    (0 : Nat) ≠ 1 ∧ 0xFFF < pow2Layout.SST_BLOCK_SIZE ∧ 0 < pow2Layout.SST_BLOCK_SIZE ∧
    get_phys_address pow2Layout 0 0xFFF ≠ get_phys_address pow2Layout 1 0 :=
  ⟨by decide, by decide, by decide,
    blocks_disjoint_without_wrap pow2Layout 0 1 0xFFF 0 (by decide) (by decide) (by decide)
      (by decide) (by decide)⟩

/-- C9 as stated fails: with region base 0x200000 and block size 0x1000, the
distinct 32-bit block ids 0 and 0x100000 are translated, at offset 0, to the
same physical address. -/
theorem blocks_overlap_by_wrap :
    (0 : Nat) ≠ 0x100000 ∧ (0x100000 : Nat) < 2 ^ 32 ∧ 0 < pow2Layout.SST_BLOCK_SIZE ∧
    get_phys_address pow2Layout 0 0 = get_phys_address pow2Layout 0x100000 0 := by
  decide

/-- C2: over the faithful device stub, for every block_id, offset and byte
sequence b, sst_flash_write(block_id, b, offset, len b) returns success, and a
following sst_flash_read(block_id, buf, offset, len b) returns success, leaves
the device as it was and fills the first len b bytes of the buffer with b. -/
theorem write_read_roundtrip (L : FlashLayout) (S : Nat) (mem : FlashMem)
    (block_id offset : Nat) (b buf : List Byte) :
    (sst_flash_write L (simFlash S) mem block_id b offset b.length).err = PSA_SST_ERR_SUCCESS ∧
    sst_flash_read L (simFlash S)
        (sst_flash_write L (simFlash S) mem block_id b offset b.length).dev
        block_id buf offset b.length
      = ⟨PSA_SST_ERR_SUCCESS, b ++ buf.drop b.length,
          (sst_flash_write L (simFlash S) mem block_id b offset b.length).dev⟩ ∧
    (sst_flash_read L (simFlash S)
        (sst_flash_write L (simFlash S) mem block_id b offset b.length).dev
        block_id buf offset b.length).buff.take b.length = b := by
  have hrd : readBytes (storeBytes mem (get_phys_address L block_id offset) b b.length)
      (get_phys_address L block_id offset) b.length = b := by
    rw [readBytes_storeBytes _ _ _ _ le_rfl, List.take_length]
  simp only [sst_flash_write_simFlash, sst_flash_read_simFlash, hrd]
  refine ⟨trivial, trivial, ?_⟩
  simp

/-- C7: over the faithful device stub, after sst_flash_block_to_block_move(B, 0,
A, 0, n1) followed by sst_flash_block_to_block_move(D, 0, C, 0, n2) with n1, n2
at most SST_BLOCK_SIZE, starting from a scratch buffer of SST_BLOCK_SIZE bytes of
any contents: both calls succeed, the n2 bytes at (D, 0) equal the n2 bytes that
were at (C, 0) immediately before the second call, the device memory the second
call leaves is the same for every contents of the scratch buffer, and the
scratch buffer still has SST_BLOCK_SIZE bytes. -/
theorem no_cross_call_buffer_leakage (L : FlashLayout) (S : Nat) (mem : FlashMem)
    (scratch : List Byte) (A B C D n1 n2 : Nat)
    (hscratch : scratch.length = L.SST_BLOCK_SIZE)
    (h1 : n1 ≤ L.SST_BLOCK_SIZE) (h2 : n2 ≤ L.SST_BLOCK_SIZE) :
    (sst_flash_block_to_block_move L (simFlash S) mem scratch B 0 A 0 n1).err
      = PSA_SST_ERR_SUCCESS ∧
    (sst_flash_block_to_block_move L (simFlash S)
        (sst_flash_block_to_block_move L (simFlash S) mem scratch B 0 A 0 n1).dev
        (sst_flash_block_to_block_move L (simFlash S) mem scratch B 0 A 0 n1).dst_block_data_copy
        D 0 C 0 n2).err = PSA_SST_ERR_SUCCESS ∧
    readBytes
        (sst_flash_block_to_block_move L (simFlash S)
          (sst_flash_block_to_block_move L (simFlash S) mem scratch B 0 A 0 n1).dev
          (sst_flash_block_to_block_move L (simFlash S) mem scratch B 0 A 0
            n1).dst_block_data_copy
          D 0 C 0 n2).dev
        (get_phys_address L D 0) n2
      = readBytes (sst_flash_block_to_block_move L (simFlash S) mem scratch B 0 A 0 n1).dev
          (get_phys_address L C 0) n2 ∧
    (∀ other : List Byte,
      (sst_flash_block_to_block_move L (simFlash S)
          (sst_flash_block_to_block_move L (simFlash S) mem scratch B 0 A 0 n1).dev
          other D 0 C 0 n2).dev
        = (sst_flash_block_to_block_move L (simFlash S)
            (sst_flash_block_to_block_move L (simFlash S) mem scratch B 0 A 0 n1).dev
            (sst_flash_block_to_block_move L (simFlash S) mem scratch B 0 A 0
              n1).dst_block_data_copy
            D 0 C 0 n2).dev) ∧
    (sst_flash_block_to_block_move L (simFlash S)
        (sst_flash_block_to_block_move L (simFlash S) mem scratch B 0 A 0 n1).dev
        (sst_flash_block_to_block_move L (simFlash S) mem scratch B 0 A 0 n1).dst_block_data_copy
        D 0 C 0 n2).dst_block_data_copy.length = L.SST_BLOCK_SIZE := by
  simp only [sst_flash_block_to_block_move_simFlash]
  refine ⟨trivial, trivial, readBytes_after_move _ _ _ _ _, ?_, ?_⟩
  · intro other
    exact storeBytes_scratch_irrelevant _ _ _ _ _ _
  · simp only [List.length_append, readBytes_length, List.length_drop]
    omega

/-- C3 (amended): over the faithful device stub, for every src block, dst block
and byte sequence b with len(b) <= SST_BLOCK_SIZE stored at (src, 0),
sst_flash_block_to_block_move(dst, 0, src, 0, len(b)) returns
PSA_SST_ERR_SUCCESS and afterwards reading len(b) bytes from (dst, 0) yields b;
every byte of the source block (the SST_BLOCK_SIZE bytes from its base address)
is the same as before the call when SST_BLOCK_SIZE divides 2^32 or the extent
of neither block wraps around 2^32. -/
theorem move_success_path (L : FlashLayout) (S : Nat) (mem : FlashMem)
    (scratch buf : List Byte) (src dst : Nat) (b : List Byte)
    (hlen : b.length ≤ L.SST_BLOCK_SIZE)
    (hsrc : (sst_flash_read L (simFlash S) mem src [] 0 b.length).buff = b) :
    (sst_flash_block_to_block_move L (simFlash S) mem scratch dst 0 src 0 b.length).err
      = PSA_SST_ERR_SUCCESS ∧
    sst_flash_read L (simFlash S)
        (sst_flash_block_to_block_move L (simFlash S) mem scratch dst 0 src 0 b.length).dev
        dst buf 0 b.length
      = ⟨PSA_SST_ERR_SUCCESS, b ++ buf.drop b.length,
          (sst_flash_block_to_block_move L (simFlash S) mem scratch dst 0 src 0
            b.length).dev⟩ ∧
    ((L.SST_BLOCK_SIZE ∣ 2 ^ 32 ∨
        (L.SST_FLASH_AREA_ADDR + (src + 1) * L.SST_BLOCK_SIZE ≤ 2 ^ 32 ∧
         L.SST_FLASH_AREA_ADDR + (dst + 1) * L.SST_BLOCK_SIZE ≤ 2 ^ 32)) →
      ∀ o, o < L.SST_BLOCK_SIZE →
        (sst_flash_block_to_block_move L (simFlash S) mem scratch dst 0 src 0 b.length).dev
            (get_phys_address L src 0 + o)
          = mem (get_phys_address L src 0 + o)) := by
  have hb : readBytes mem (get_phys_address L src 0) b.length = b := by
    simpa [sst_flash_read_simFlash] using hsrc
  simp only [sst_flash_block_to_block_move_simFlash, sst_flash_read_simFlash,
    readBytes_after_move]
  refine ⟨trivial, ?_, ?_⟩
  · rw [hb]
  · intro hlay o ho
    rcases block_bases_equal_or_apart L src dst hlay with heq | hlt | hgt
    · rw [← heq]
      exact storeBytes_readBytes_same mem _ _ _ _
    · exact storeBytes_outside _ _ _ _ _ (Or.inl (by omega))
    · exact storeBytes_outside _ _ _ _ _ (Or.inr (by omega))

/-- Witness for C3 (amended): the 4 KiB layout, one byte moved from block 0 to
block 1. -/
theorem move_success_path_witness :
    [(1 : Byte)].length ≤ pow2Layout.SST_BLOCK_SIZE ∧
    (sst_flash_read pow2Layout (simFlash 0x1000) (oneByteMem 0x200000 1) 0 [] 0
        [(1 : Byte)].length).buff = [1] ∧
    pow2Layout.SST_BLOCK_SIZE ∣ 2 ^ 32 ∧
    (sst_flash_block_to_block_move pow2Layout (simFlash 0x1000) (oneByteMem 0x200000 1)
        (List.replicate 0x1000 0) 1 0 0 0 [(1 : Byte)].length).err = PSA_SST_ERR_SUCCESS ∧
    (sst_flash_read pow2Layout (simFlash 0x1000)
        (sst_flash_block_to_block_move pow2Layout (simFlash 0x1000) (oneByteMem 0x200000 1)
          (List.replicate 0x1000 0) 1 0 0 0 [(1 : Byte)].length).dev
        1 [0] 0 [(1 : Byte)].length).buff = [1] ++ ([0] : List Byte).drop [(1 : Byte)].length ∧
    ∀ o, o < pow2Layout.SST_BLOCK_SIZE →
      (sst_flash_block_to_block_move pow2Layout (simFlash 0x1000) (oneByteMem 0x200000 1)
          (List.replicate 0x1000 0) 1 0 0 0 [(1 : Byte)].length).dev
          (get_phys_address pow2Layout 0 0 + o)
        = oneByteMem 0x200000 1 (get_phys_address pow2Layout 0 0 + o) :=
  ⟨by decide, by decide, by decide,
    (move_success_path pow2Layout 0x1000 (oneByteMem 0x200000 1) (List.replicate 0x1000 0)
      [0] 0 1 [1] (by decide) (by decide)).1,
    congrArg SstRead.buff
      (move_success_path pow2Layout 0x1000 (oneByteMem 0x200000 1) (List.replicate 0x1000 0)
        [0] 0 1 [1] (by decide) (by decide)).2.1,
    (move_success_path pow2Layout 0x1000 (oneByteMem 0x200000 1) (List.replicate 0x1000 0)
      [0] 0 1 [1] (by decide) (by decide)).2.2 (Or.inl (by decide))⟩

/-- C3 as stated fails when the block size does not divide 2^32: with region
base 0x300000 and block size 0x3000, the 32-bit block id 699051 is translated to
0x300000 + 0x1000 (699051 * 0x3000 = 2 * 2^32 + 0x1000), inside block 0.  Moving
the byte stored at (0, 0) to (699051, 0) succeeds and changes the byte at offset
0x1000 of the source block 0. -/
theorem move_changes_source_block :
    (699051 : Nat) < 2 ^ 32 ∧
    [(1 : Byte)].length ≤ tripleLayout.SST_BLOCK_SIZE ∧
    (sst_flash_read tripleLayout (simFlash 0x3000) (oneByteMem 0x300000 1) 0 [] 0
        [(1 : Byte)].length).buff = [1] ∧
    (sst_flash_block_to_block_move tripleLayout (simFlash 0x3000) (oneByteMem 0x300000 1)
        (List.replicate 0x3000 0) 699051 0 0 0 [(1 : Byte)].length).err
      = PSA_SST_ERR_SUCCESS ∧
    0x1000 < tripleLayout.SST_BLOCK_SIZE ∧
    oneByteMem 0x300000 1 (get_phys_address tripleLayout 0 0 + 0x1000) = 0 ∧
    (sst_flash_block_to_block_move tripleLayout (simFlash 0x3000) (oneByteMem 0x300000 1)
        (List.replicate 0x3000 0) 699051 0 0 0 [(1 : Byte)].length).dev
        (get_phys_address tripleLayout 0 0 + 0x1000) = 1 := by
  decide

/-- C8 (amended): over the device stub whose EraseSector sets the sector
containing the address to 0xFF, with sector size SST_BLOCK_SIZE and a
sector-aligned region base, for every block id such that SST_BLOCK_SIZE divides
2^32 or the extent of the block does not wrap around 2^32,
sst_flash_erase_block(id) returns PSA_SST_ERR_SUCCESS and, for every offset and
size with offset + size <= SST_BLOCK_SIZE, a following
sst_flash_read(id, buf, offset, size) succeeds and delivers size bytes 0xFF. -/
theorem erase_then_read (L : FlashLayout) (mem : FlashMem) (buf : List Byte)
    (id offset size : Nat)
    (halign : L.SST_FLASH_AREA_ADDR % L.SST_BLOCK_SIZE = 0)
    (hin : offset + size ≤ L.SST_BLOCK_SIZE)
    (hlay : L.SST_BLOCK_SIZE ∣ 2 ^ 32 ∨
      L.SST_FLASH_AREA_ADDR + (id + 1) * L.SST_BLOCK_SIZE ≤ 2 ^ 32) :
    (sst_flash_erase_block L (simFlash L.SST_BLOCK_SIZE) mem id).err = PSA_SST_ERR_SUCCESS ∧
    sst_flash_read L (simFlash L.SST_BLOCK_SIZE)
        (sst_flash_erase_block L (simFlash L.SST_BLOCK_SIZE) mem id).dev id buf offset size
      = ⟨PSA_SST_ERR_SUCCESS, List.replicate size 0xFF ++ buf.drop size,
          (sst_flash_erase_block L (simFlash L.SST_BLOCK_SIZE) mem id).dev⟩ := by
  simp only [sst_flash_erase_block_simFlash, sst_flash_read_simFlash]
  refine ⟨trivial, ?_⟩
  have hrd : readBytes (eraseBytes L.SST_BLOCK_SIZE mem (get_phys_address L id 0))
      (get_phys_address L id offset) size = List.replicate size 0xFF := by
    apply List.ext_getElem
    · simp [readBytes_length]
    · intro i h1 h2
      have hi : i < size := by simpa [readBytes_length] using h1
      have hpos : 0 < L.SST_BLOCK_SIZE := by omega
      obtain ⟨hmod, hend⟩ := block_base_aligned L id hpos halign hlay
      have haddr : get_phys_address L id offset = get_phys_address L id 0 + offset := by
        rw [get_phys_address_offset]
        exact u32_of_lt (by omega)
      rw [readBytes_getElem, List.getElem_replicate, haddr]
      unfold eraseBytes
      rw [if_pos]
      obtain ⟨k, hk⟩ := Nat.dvd_of_mod_eq_zero hmod
      rw [hk, Nat.mul_div_cancel_left k hpos, Nat.add_assoc, Nat.mul_add_div hpos,
        Nat.div_eq_of_lt (by omega)]
      rfl
  rw [hrd]

/-- Witness for C8 (amended): block 1 of the 4 KiB layout, reading its last two bytes. -/
theorem erase_then_read_witness :
    pow2Layout.SST_FLASH_AREA_ADDR % pow2Layout.SST_BLOCK_SIZE = 0 ∧
    0xFFE + 2 ≤ pow2Layout.SST_BLOCK_SIZE ∧
    pow2Layout.SST_BLOCK_SIZE ∣ 2 ^ 32 ∧
    (sst_flash_erase_block pow2Layout (simFlash pow2Layout.SST_BLOCK_SIZE) zeroMem 1).err
      = PSA_SST_ERR_SUCCESS ∧
    sst_flash_read pow2Layout (simFlash pow2Layout.SST_BLOCK_SIZE)
        (sst_flash_erase_block pow2Layout (simFlash pow2Layout.SST_BLOCK_SIZE) zeroMem 1).dev
        1 [0, 0] 0xFFE 2
      = ⟨PSA_SST_ERR_SUCCESS, List.replicate 2 0xFF ++ ([0, 0] : List Byte).drop 2,
          (sst_flash_erase_block pow2Layout (simFlash pow2Layout.SST_BLOCK_SIZE)
            zeroMem 1).dev⟩ :=
  ⟨by decide, by decide, by decide,
    erase_then_read pow2Layout zeroMem [0, 0] 1 0xFFE 2 (by decide) (by decide)
      (Or.inl (by decide))⟩

/-! ## Error handling and delegation, for an arbitrary driver -/

theorem programCalls_append (l1 l2 : List FlashCall) :
    programCalls (l1 ++ l2) = programCalls l1 + programCalls l2 := by
  simp [programCalls]

/-- C6: for each of sst_flash_read, sst_flash_write and sst_flash_erase_block,
for every driver and input, the result is PSA_SST_ERR_SYSTEM_ERROR if and only
if the device call (ReadData, ProgramData, EraseSector respectively) returned a
status different from ARM_DRIVER_OK, it is PSA_SST_ERR_SUCCESS if and only if
the status was ARM_DRIVER_OK, and so it is always one of these two values. -/
theorem result_two_valued {σ : Type} (L : FlashLayout) (D : ARM_DRIVER_FLASH σ) (dev : σ)
    (block_id : Nat) (buff : List Byte) (offset size : Nat) :
    (((sst_flash_read L D dev block_id buff offset size).err = PSA_SST_ERR_SYSTEM_ERROR ↔
        (D.ReadData dev (get_phys_address L block_id offset) buff size).status
          ≠ ARM_DRIVER_OK) ∧
      ((sst_flash_read L D dev block_id buff offset size).err = PSA_SST_ERR_SUCCESS ↔
        (D.ReadData dev (get_phys_address L block_id offset) buff size).status
          = ARM_DRIVER_OK) ∧
      ((sst_flash_read L D dev block_id buff offset size).err = PSA_SST_ERR_SYSTEM_ERROR ∨
        (sst_flash_read L D dev block_id buff offset size).err = PSA_SST_ERR_SUCCESS)) ∧
    (((sst_flash_write L D dev block_id buff offset size).err = PSA_SST_ERR_SYSTEM_ERROR ↔
        (D.ProgramData dev (get_phys_address L block_id offset) buff size).status
          ≠ ARM_DRIVER_OK) ∧
      ((sst_flash_write L D dev block_id buff offset size).err = PSA_SST_ERR_SUCCESS ↔
        (D.ProgramData dev (get_phys_address L block_id offset) buff size).status
          = ARM_DRIVER_OK) ∧
      ((sst_flash_write L D dev block_id buff offset size).err = PSA_SST_ERR_SYSTEM_ERROR ∨
        (sst_flash_write L D dev block_id buff offset size).err = PSA_SST_ERR_SUCCESS)) ∧
    (((sst_flash_erase_block L D dev block_id).err = PSA_SST_ERR_SYSTEM_ERROR ↔
        (D.EraseSector dev (get_phys_address L block_id 0)).status ≠ ARM_DRIVER_OK) ∧
      ((sst_flash_erase_block L D dev block_id).err = PSA_SST_ERR_SUCCESS ↔
        (D.EraseSector dev (get_phys_address L block_id 0)).status = ARM_DRIVER_OK) ∧
      ((sst_flash_erase_block L D dev block_id).err = PSA_SST_ERR_SYSTEM_ERROR ∨
        (sst_flash_erase_block L D dev block_id).err = PSA_SST_ERR_SUCCESS)) := by
  refine ⟨?_, ?_, ?_⟩
  · unfold sst_flash_read flash_read
    by_cases h : (D.ReadData dev (get_phys_address L block_id offset) buff size).status
        = ARM_DRIVER_OK <;> simp [h]
  · unfold sst_flash_write flash_write
    by_cases h : (D.ProgramData dev (get_phys_address L block_id offset) buff size).status
        = ARM_DRIVER_OK <;> simp [h]
  · unfold sst_flash_erase_block flash_erase BLOCK_START_OFFSET
    by_cases h : (D.EraseSector dev (get_phys_address L block_id 0)).status
        = ARM_DRIVER_OK <;> simp [h]

/-- C10: for every driver and input, run over the recording driver,
sst_flash_read adds to the log exactly the one call
ReadData(get_phys_address(block_id, offset), buff, size) and hands back the
buffer and device state that call produced; sst_flash_write adds exactly
ProgramData(get_phys_address(block_id, offset), buff, size); and
sst_flash_erase_block adds exactly EraseSector(get_phys_address(block_id, 0));
in each case the device is left in the state that single call produced. -/
theorem direct_delegation {σ : Type} (L : FlashLayout) (D : ARM_DRIVER_FLASH σ) (dev : σ)
    (log : List FlashCall) (block_id : Nat) (buff : List Byte) (offset size : Nat) :
    ((sst_flash_read L (recording D) (dev, log) block_id buff offset size).dev.2
        = log ++ [FlashCall.ReadData (get_phys_address L block_id offset) buff size] ∧
      (sst_flash_read L (recording D) (dev, log) block_id buff offset size).dev.1
        = (D.ReadData dev (get_phys_address L block_id offset) buff size).dev ∧
      (sst_flash_read L (recording D) (dev, log) block_id buff offset size).buff
        = (D.ReadData dev (get_phys_address L block_id offset) buff size).data) ∧
    ((sst_flash_write L (recording D) (dev, log) block_id buff offset size).dev.2
        = log ++ [FlashCall.ProgramData (get_phys_address L block_id offset) buff size] ∧
      (sst_flash_write L (recording D) (dev, log) block_id buff offset size).dev.1
        = (D.ProgramData dev (get_phys_address L block_id offset) buff size).dev) ∧
    ((sst_flash_erase_block L (recording D) (dev, log) block_id).dev.2
        = log ++ [FlashCall.EraseSector (get_phys_address L block_id 0)] ∧
      (sst_flash_erase_block L (recording D) (dev, log) block_id).dev.1
        = (D.EraseSector dev (get_phys_address L block_id 0)).dev) := by
  refine ⟨?_, ?_, ?_⟩
  · unfold sst_flash_read flash_read recording
    by_cases h : (D.ReadData dev (get_phys_address L block_id offset) buff size).status
        = ARM_DRIVER_OK <;> simp [h]
  · unfold sst_flash_write flash_write recording
    by_cases h : (D.ProgramData dev (get_phys_address L block_id offset) buff size).status
        = ARM_DRIVER_OK <;> simp [h]
  · unfold sst_flash_erase_block flash_erase recording BLOCK_START_OFFSET
    by_cases h : (D.EraseSector dev (get_phys_address L block_id 0)).status
        = ARM_DRIVER_OK <;> simp [h]

/-- C4: for every driver, device state and arguments, if ReadData for the source
address returns a status other than ARM_DRIVER_OK, then
sst_flash_block_to_block_move returns PSA_SST_ERR_SYSTEM_ERROR, the only device
call it issues is that ReadData (no ProgramData call at all), and the device is
left in the state the failed ReadData returned: the move applies nothing else
to it, so storage a failed read leaves alone is unchanged. -/
theorem move_read_failure {σ : Type} (L : FlashLayout) (D : ARM_DRIVER_FLASH σ) (dev : σ)
    (log : List FlashCall) (scratch : List Byte)
    (dst_block dst_offset src_block src_offset size : Nat)
    (hfail : (D.ReadData dev (get_phys_address L src_block src_offset) scratch size).status
      ≠ ARM_DRIVER_OK) :
    (sst_flash_block_to_block_move L (recording D) (dev, log) scratch
        dst_block dst_offset src_block src_offset size).err = PSA_SST_ERR_SYSTEM_ERROR ∧
    (sst_flash_block_to_block_move L (recording D) (dev, log) scratch
        dst_block dst_offset src_block src_offset size).dev.2
      = log ++ [FlashCall.ReadData (get_phys_address L src_block src_offset) scratch size] ∧
    programCalls (sst_flash_block_to_block_move L (recording D) (dev, log) scratch
        dst_block dst_offset src_block src_offset size).dev.2 = programCalls log ∧
    (sst_flash_block_to_block_move L (recording D) (dev, log) scratch
        dst_block dst_offset src_block src_offset size).dev.1
      = (D.ReadData dev (get_phys_address L src_block src_offset) scratch size).dev ∧
    ((D.ReadData dev (get_phys_address L src_block src_offset) scratch size).dev = dev →
      (sst_flash_block_to_block_move L (recording D) (dev, log) scratch
        dst_block dst_offset src_block src_offset size).dev.1 = dev) := by
  have hm : sst_flash_block_to_block_move L (recording D) (dev, log) scratch
        dst_block dst_offset src_block src_offset size
      = ⟨PSA_SST_ERR_SYSTEM_ERROR,
          (D.ReadData dev (get_phys_address L src_block src_offset) scratch size).data,
          ((D.ReadData dev (get_phys_address L src_block src_offset) scratch size).dev,
            log ++ [FlashCall.ReadData (get_phys_address L src_block src_offset) scratch
              size])⟩ := by
    simp [sst_flash_block_to_block_move, flash_read, recording, hfail]
  rw [hm]
  refine ⟨rfl, rfl, ?_, rfl, fun h => h⟩
  simp [programCalls_append, programCalls, FlashCall.isProgramData]

/-- Witness for C4: a stub whose ReadData fails; the move reports the error,
the log holds the one ReadData call and the memory is the one it started with. -/
theorem move_read_failure_witness :
    (readFailingFlash.ReadData (oneByteMem 0x200000 1) (get_phys_address pow2Layout 0 0)
        [0, 0] 2).status ≠ ARM_DRIVER_OK ∧
    (sst_flash_block_to_block_move pow2Layout (recording readFailingFlash)
        (oneByteMem 0x200000 1, []) [0, 0] 1 0 0 0 2).err = PSA_SST_ERR_SYSTEM_ERROR ∧
    (sst_flash_block_to_block_move pow2Layout (recording readFailingFlash)
        (oneByteMem 0x200000 1, []) [0, 0] 1 0 0 0 2).dev.2
      = [] ++ [FlashCall.ReadData (get_phys_address pow2Layout 0 0) [0, 0] 2] ∧
    (sst_flash_block_to_block_move pow2Layout (recording readFailingFlash)
        (oneByteMem 0x200000 1, []) [0, 0] 1 0 0 0 2).dev.1 = oneByteMem 0x200000 1 :=
  ⟨by decide,
    (move_read_failure pow2Layout readFailingFlash (oneByteMem 0x200000 1) [] [0, 0]
      1 0 0 0 2 (by decide)).1,
    (move_read_failure pow2Layout readFailingFlash (oneByteMem 0x200000 1) [] [0, 0]
      1 0 0 0 2 (by decide)).2.1,
    (move_read_failure pow2Layout readFailingFlash (oneByteMem 0x200000 1) [] [0, 0]
      1 0 0 0 2 (by decide)).2.2.2.2 rfl⟩

/-- C5: for every driver and input, if ProgramData returns a status other than
ARM_DRIVER_OK then sst_flash_write returns PSA_SST_ERR_SYSTEM_ERROR having issued
that one ProgramData call and nothing else; and if the source ReadData of
sst_flash_block_to_block_move succeeded and the ProgramData that follows returns
a status other than ARM_DRIVER_OK, the move returns PSA_SST_ERR_SYSTEM_ERROR
having issued the ReadData and then exactly one ProgramData call. -/
theorem program_failure_propagates {σ : Type} (L : FlashLayout) (D : ARM_DRIVER_FLASH σ)
    (dev : σ) (log : List FlashCall) (block_id : Nat) (buff : List Byte) (offset size : Nat)
    (scratch : List Byte) (dst_block dst_offset src_block src_offset msize : Nat) :
    ((D.ProgramData dev (get_phys_address L block_id offset) buff size).status
        ≠ ARM_DRIVER_OK →
      (sst_flash_write L (recording D) (dev, log) block_id buff offset size).err
        = PSA_SST_ERR_SYSTEM_ERROR ∧
      (sst_flash_write L (recording D) (dev, log) block_id buff offset size).dev.2
        = log ++ [FlashCall.ProgramData (get_phys_address L block_id offset) buff size] ∧
      programCalls (sst_flash_write L (recording D) (dev, log) block_id buff offset size).dev.2
        = programCalls log + 1) ∧
    ((D.ReadData dev (get_phys_address L src_block src_offset) scratch msize).status
        = ARM_DRIVER_OK →
      (D.ProgramData
          (D.ReadData dev (get_phys_address L src_block src_offset) scratch msize).dev
          (get_phys_address L dst_block dst_offset)
          (D.ReadData dev (get_phys_address L src_block src_offset) scratch msize).data
          msize).status ≠ ARM_DRIVER_OK →
      (sst_flash_block_to_block_move L (recording D) (dev, log) scratch
          dst_block dst_offset src_block src_offset msize).err = PSA_SST_ERR_SYSTEM_ERROR ∧
      (sst_flash_block_to_block_move L (recording D) (dev, log) scratch
          dst_block dst_offset src_block src_offset msize).dev.2
        = log ++ [FlashCall.ReadData (get_phys_address L src_block src_offset) scratch msize,
            FlashCall.ProgramData (get_phys_address L dst_block dst_offset)
              (D.ReadData dev (get_phys_address L src_block src_offset) scratch msize).data
              msize] ∧
      programCalls (sst_flash_block_to_block_move L (recording D) (dev, log) scratch
          dst_block dst_offset src_block src_offset msize).dev.2 = programCalls log + 1) := by
  constructor
  · intro hw
    have hm : sst_flash_write L (recording D) (dev, log) block_id buff offset size
        = ⟨PSA_SST_ERR_SYSTEM_ERROR,
            ((D.ProgramData dev (get_phys_address L block_id offset) buff size).dev,
              log ++ [FlashCall.ProgramData (get_phys_address L block_id offset) buff
                size])⟩ := by
      simp [sst_flash_write, flash_write, recording, hw]
    rw [hm]
    refine ⟨rfl, rfl, ?_⟩
    simp [programCalls_append, programCalls, FlashCall.isProgramData]
  · intro hr hp
    have hm : sst_flash_block_to_block_move L (recording D) (dev, log) scratch
          dst_block dst_offset src_block src_offset msize
        = ⟨PSA_SST_ERR_SYSTEM_ERROR,
            (D.ReadData dev (get_phys_address L src_block src_offset) scratch msize).data,
            ((D.ProgramData
                (D.ReadData dev (get_phys_address L src_block src_offset) scratch msize).dev
                (get_phys_address L dst_block dst_offset)
                (D.ReadData dev (get_phys_address L src_block src_offset) scratch msize).data
                msize).dev,
              log ++ [FlashCall.ReadData (get_phys_address L src_block src_offset) scratch
                  msize,
                FlashCall.ProgramData (get_phys_address L dst_block dst_offset)
                  (D.ReadData dev (get_phys_address L src_block src_offset) scratch
                    msize).data msize])⟩ := by
      simp [sst_flash_block_to_block_move, flash_read, flash_write, recording, hr, hp]
    rw [hm]
    refine ⟨rfl, rfl, ?_⟩
    simp [programCalls_append, programCalls, FlashCall.isProgramData]

/-- Witness for C5: a stub whose ProgramData fails; sst_flash_write and the move
both report the error after a single ProgramData call. -/
theorem program_failure_propagates_witness :
    (programFailingFlash.ProgramData zeroMem (get_phys_address pow2Layout 1 0) [7, 8]
        2).status ≠ ARM_DRIVER_OK ∧
    (sst_flash_write pow2Layout (recording programFailingFlash) (zeroMem, []) 1 [7, 8] 0
        2).err = PSA_SST_ERR_SYSTEM_ERROR ∧
    programCalls (sst_flash_write pow2Layout (recording programFailingFlash) (zeroMem, [])
        1 [7, 8] 0 2).dev.2 = programCalls [] + 1 ∧
    (sst_flash_block_to_block_move pow2Layout (recording programFailingFlash) (zeroMem, [])
        [0, 0] 1 0 0 0 2).err = PSA_SST_ERR_SYSTEM_ERROR ∧
    programCalls (sst_flash_block_to_block_move pow2Layout (recording programFailingFlash)
        (zeroMem, []) [0, 0] 1 0 0 0 2).dev.2 = programCalls [] + 1 :=
  ⟨by decide,
    ((program_failure_propagates pow2Layout programFailingFlash zeroMem [] 1 [7, 8] 0 2
      [0, 0] 1 0 0 0 2).1 (by decide)).1,
    ((program_failure_propagates pow2Layout programFailingFlash zeroMem [] 1 [7, 8] 0 2
      [0, 0] 1 0 0 0 2).1 (by decide)).2.2,
    ((program_failure_propagates pow2Layout programFailingFlash zeroMem [] 1 [7, 8] 0 2
      [0, 0] 1 0 0 0 2).2 (by decide) (by decide)).1,
    ((program_failure_propagates pow2Layout programFailingFlash zeroMem [] 1 [7, 8] 0 2
      [0, 0] 1 0 0 0 2).2 (by decide) (by decide)).2.2⟩

/-- C8 as stated fails when the block size does not divide 2^32: with sector and
block size 0x3000 and the sector-aligned region base 0x300000, the 32-bit block
id 699051 is translated to 0x301000, which is not a sector boundary.  Erasing
that block succeeds and erases the sector from 0x300000 to 0x302FFF; reading one
byte at offset 0x2000 of the block reads address 0x303000 in the next sector and
returns the old byte 0, not 0xFF. -/
theorem erase_misses_block_offset :
    (699051 : Nat) < 2 ^ 32 ∧
    tripleLayout.SST_FLASH_AREA_ADDR % tripleLayout.SST_BLOCK_SIZE = 0 ∧
    0x2000 + 1 ≤ tripleLayout.SST_BLOCK_SIZE ∧
    (sst_flash_erase_block tripleLayout (simFlash tripleLayout.SST_BLOCK_SIZE) zeroMem
        699051).err = PSA_SST_ERR_SUCCESS ∧
    (sst_flash_read tripleLayout (simFlash tripleLayout.SST_BLOCK_SIZE)
        (sst_flash_erase_block tripleLayout (simFlash tripleLayout.SST_BLOCK_SIZE) zeroMem
          699051).dev
        699051 [7] 0x2000 1).err = PSA_SST_ERR_SUCCESS ∧
    (sst_flash_read tripleLayout (simFlash tripleLayout.SST_BLOCK_SIZE)
        (sst_flash_erase_block tripleLayout (simFlash tripleLayout.SST_BLOCK_SIZE) zeroMem
          699051).dev
        699051 [7] 0x2000 1).buff = [0] := by
  decide

/-- Witness for C7: two successive moves in the 4 KiB layout, from block 0 to
block 1 and then from block 2 to block 3, with a scratch buffer of one block. -/
theorem no_cross_call_buffer_leakage_witness :
    (List.replicate 0x1000 (9 : Byte)).length = pow2Layout.SST_BLOCK_SIZE ∧
    2 ≤ pow2Layout.SST_BLOCK_SIZE ∧ 1 ≤ pow2Layout.SST_BLOCK_SIZE ∧
    readBytes
        (sst_flash_block_to_block_move pow2Layout (simFlash 0x1000)
          (sst_flash_block_to_block_move pow2Layout (simFlash 0x1000) (oneByteMem 0x200000 1)
            (List.replicate 0x1000 9) 1 0 0 0 2).dev
          (sst_flash_block_to_block_move pow2Layout (simFlash 0x1000) (oneByteMem 0x200000 1)
            (List.replicate 0x1000 9) 1 0 0 0 2).dst_block_data_copy
          3 0 2 0 1).dev
        (get_phys_address pow2Layout 3 0) 1
      = readBytes
          (sst_flash_block_to_block_move pow2Layout (simFlash 0x1000) (oneByteMem 0x200000 1)
            (List.replicate 0x1000 9) 1 0 0 0 2).dev
          (get_phys_address pow2Layout 2 0) 1 :=
  ⟨by rw [List.length_replicate]; rfl, by decide, by decide,
    (no_cross_call_buffer_leakage pow2Layout 0x1000 (oneByteMem 0x200000 1)
      (List.replicate 0x1000 9) 0 1 2 3 2 1 (by rw [List.length_replicate]; rfl) (by decide)
      (by decide)).2.2.1⟩

end SstFlash
